import Mathlib

/-!
Shallow embedding of `minio/datatypes.py` (response parsing for the
ListBuckets, ListObjects*, and multipart-upload APIs) together with the
XML-navigation and timestamp helpers it imports.  XML documents are
modelled as trees whose tags are already local names (the helpers in the
source match tags by local name, ignoring namespaces).  Python values
that are dynamically either a string or a parsed value are modelled with
explicit sum-like inductives.  Fallible parsing is modelled with
`Except PyErr`.
-/

namespace Minio

/-- Errors raised by the parsing layer: `malformedResponse` corresponds to
the MalformedResponse failure of the spec (carrying the offending tag
name), `valueError` to a Python `ValueError` from `int()` conversion. -/
inductive PyErr where
| malformedResponse (tag : String)
| valueError (text : String)
deriving DecidableEq, Repr

/-- An XML element as seen by the parsers: a tag (local name), optional
text content, and the list of direct children in document order. -/
inductive XmlElem where
| mk (tag : String) (text : Option String) (children : List XmlElem)
deriving Repr

/-- Tag (local name) of an element. -/
def XmlElem.tag : XmlElem → String
| .mk t _ _ => t

/-- Text content of an element (`none` models Python `element.text is None`). -/
def XmlElem.text : XmlElem → Option String
| .mk _ s _ => s

/-- Direct children of an element, in document order. -/
def XmlElem.children : XmlElem → List XmlElem
| .mk _ _ c => c

/-- Modelled from the spec (§4.1, `minio/xml.py` is not under src/):
`find(element, tagName)` returns the first direct child whose local name
matches, or absent. -/
def find (element : XmlElem) (name : String) : Option XmlElem :=
  element.children.find? (fun c => c.tag == name)

/-- Modelled from the spec (§4.1, `minio/xml.py` is not under src/):
`findAll(element, tagName)` returns all matching direct children in
document order. -/
def findall (element : XmlElem) (name : String) : List XmlElem :=
  element.children.filter (fun c => c.tag == name)

/-- Modelled from the spec (§4.1, `minio/xml.py` is not under src/):
`findText(element, tagName)` without the required flag: absent element
gives absent; a present element gives its text, with absent text
degrading to the empty string. -/
def findtext (element : XmlElem) (name : String) : Option String :=
  match find element name with
  | none => none
  | some c => some (c.text.getD "")

/-- Modelled from the spec (§4.1, `minio/xml.py` is not under src/):
`findText(element, tagName, required=true)` fails with a
MalformedResponse error if the tag is absent or its text is empty. -/
def findtext_strict (element : XmlElem) (name : String) : Except PyErr String :=
  match findtext element name with
  | none => Except.error (PyErr.malformedResponse name)
  | some t => if t = "" then Except.error (PyErr.malformedResponse name) else Except.ok t

/-- Modelled from the spec (§4.2, `minio/helpers.py` is not under src/):
instants are represented abstractly by the RFC3339 source text normalized
to UTC; two instants are equal iff their normalized representations are. -/
structure Instant where
  utc : String
deriving DecidableEq, Repr

/-- Modelled from the spec (§4.2, `minio/helpers.py` is not under src/):
`strptime_rfc3339` converts an RFC3339 timestamp into an instant.  The
MalformedResponse failure on unparseable input is not modelled; no claim
below depends on it. -/
def strptime_rfc3339 (s : String) : Instant :=
  Instant.mk s

/-- Value of a list of decimal digits, most significant first. -/
def digitsVal (l : List Char) : Nat :=
  l.foldl (fun n c => 10 * n + (c.toNat - '0'.toNat)) 0

/-- Models Python `int(text)` on the decimal strings the service emits:
an optional minus sign followed by digits; anything else raises
`ValueError`.  (Python's further tolerances, such as surrounding
whitespace or a plus sign, do not occur in these responses and are not
modelled.) -/
def pyInt (s : String) : Except PyErr Int :=
  match s.data with
  | [] => Except.error (PyErr.valueError s)
  | '-' :: rest =>
    if rest ≠ [] ∧ rest.all Char.isDigit then Except.ok (-(digitsVal rest : Int))
    else Except.error (PyErr.valueError s)
  | l =>
    if l.all Char.isDigit then Except.ok ((digitsVal l : Int))
    else Except.error (PyErr.valueError s)

/-- Models Python `text.replace('"', "")`: with a one-character pattern
and an empty replacement, `str.replace` deletes every occurrence of the
quote character anywhere in the string. -/
def pyReplaceQuote (s : String) : String :=
  String.mk (s.data.filter (fun c => !(c == '"')))

/-- Models Python `text.lower()` on the ASCII texts these responses
carry: lowercase each character. -/
def pyLower (s : String) : String :=
  String.mk (s.data.map Char.toLower)

/-- Hexadecimal digit value, used by percent-decoding. -/
def hexDigit (c : Char) : Option Nat :=
  if '0' ≤ c ∧ c ≤ '9' then some (c.toNat - '0'.toNat)
  else if 'a' ≤ c ∧ c ≤ 'f' then some (c.toNat - 'a'.toNat + 10)
  else if 'A' ≤ c ∧ c ≤ 'F' then some (c.toNat - 'A'.toNat + 10)
  else none

/-- Percent-decoding on a character list: `%hh` becomes the character
with code `hh`; malformed escapes pass through unchanged. -/
def unquoteChars : List Char → List Char
| '%' :: a :: b :: rest =>
  match hexDigit a, hexDigit b with
  | some x, some y => Char.ofNat (16 * x + y) :: unquoteChars rest
  | _, _ => '%' :: unquoteChars (a :: b :: rest)
| c :: rest => c :: unquoteChars rest
| [] => []

/-- Modelled from the spec (§4.3: object names of uploads are
percent-decoded; Python stdlib `urllib.parse.unquote`): decode `%hh`
escapes.  Multi-byte UTF-8 reassembly is not modelled; no claim below
depends on the decoding itself. -/
def unquote (s : String) : String :=
  String.mk (unquoteChars s.data)

/-- A Python value that is dynamically either a raw string or a parsed
integer (the string alternative arises when a truthiness test leaves an
empty string unconverted). -/
inductive StrOrInt where
| str (s : String)
| int (n : Int)
deriving DecidableEq, Repr

/-- A Python value that is dynamically either a raw string or a parsed
instant (the string alternative arises when a truthiness test leaves an
empty string unconverted). -/
inductive StrOrTime where
| str (s : String)
| time (t : Instant)
deriving DecidableEq, Repr

/-- Models the source idiom `x = findtext(...)` followed by
`if x: x = int(x)`: absent stays absent, an empty string stays a string,
nonempty text is converted by `int`. -/
def truthyIntField (s : Option String) : Except PyErr (Option StrOrInt) :=
  match s with
  | none => Except.ok none
  | some t =>
    if t = "" then Except.ok (some (StrOrInt.str t))
    else (pyInt t).map (fun n => some (StrOrInt.int n))

/-- Models the source idiom `x = findtext(...)` followed by
`if x: x = strptime_rfc3339(x)`: absent stays absent, an empty string
stays a string, nonempty text is parsed as a timestamp. -/
def truthyTimeField (s : Option String) : Option StrOrTime :=
  match s with
  | none => none
  | some t =>
    if t = "" then some (StrOrTime.str t)
    else some (StrOrTime.time (strptime_rfc3339 t))

/-- Models the source idiom `x = findtext(...)` followed by
`if x: x = unquote(x)`: absent stays absent, an empty string stays
itself, nonempty text is percent-decoded. -/
def truthyUnquoteField (s : Option String) : Option String :=
  match s with
  | none => none
  | some t => if t = "" then some t else some (unquote t)

/-- Models a Python list comprehension `[f(x) for x in xs]` over a
fallible `f`: elements are processed left to right and the first raised
error propagates. -/
def mapExcept {α β : Type} (f : α → Except PyErr β) : List α → Except PyErr (List β)
| [] => Except.ok []
| a :: rest =>
  match f a with
  | Except.error e => Except.error e
  | Except.ok b =>
    match mapExcept f rest with
    | Except.error e => Except.error e
    | Except.ok bs => Except.ok (b :: bs)

/-- A decoded HTTP response as consumed by the assemblers: the XML body
(already decoded from UTF-8 bytes and parsed by `xml.etree.ElementTree`,
which is outside this repository) and the ordered header list. -/
structure HttpResponse where
  data : XmlElem
  headers : List (String × String)

/-- Modelled from the spec (§6): the transport's response object offers
case-insensitive header lookup (`response.getheader(name)`), returning
the first header whose name matches up to case. -/
def getheader (r : HttpResponse) (name : String) : Option String :=
  (r.headers.find? (fun p => pyLower p.1 == pyLower name)).map (fun p => p.2)

/-- Embeds `Bucket` (datatypes.py lines 30-45): name and creation date.
The creation date is `none`, a kept raw string, or a parsed instant,
mirroring the dynamic value produced by the listing parser. -/
structure Bucket where
  name : String
  creation_date : Option StrOrTime
deriving DecidableEq, Repr

/-- Embeds `ListAllMyBucketsResult` (datatypes.py lines 48-57). -/
structure ListAllMyBucketsResult where
  buckets : List Bucket
deriving DecidableEq, Repr

/-- Embeds `ListAllMyBucketsResult.fromxml` (datatypes.py lines 59-72):
locate the Buckets container (absent gives an empty sequence), then for
each Bucket child read the required Name and the optional CreationDate
(parsed when nonempty, per the `if creation_date:` truthiness test). -/
def ListAllMyBucketsResult.fromxml (element : XmlElem) :
    Except PyErr ListAllMyBucketsResult :=
  match find element "Buckets" with
  | none => Except.ok (ListAllMyBucketsResult.mk [])
  | some container =>
    match mapExcept (fun bucket =>
        match findtext_strict bucket "Name" with
        | Except.error e => Except.error e
        | Except.ok name =>
          Except.ok (Bucket.mk name
            (truthyTimeField (findtext bucket "CreationDate"))))
        (findall container "Bucket") with
    | Except.error e => Except.error e
    | Except.ok buckets => Except.ok (ListAllMyBucketsResult.mk buckets)

/-- Embeds `Object` (datatypes.py lines 75-166): all fields optional
except the bucket name, exactly as the Python constructor defaults them
to `None`.  `metadata` is `none` for the default and `some` an
association list for a populated dict. -/
structure Object where
  bucket_name : String
  object_name : Option String
  last_modified : Option Instant
  etag : Option String
  size : Option Int
  metadata : Option (List (String × Option String))
  version_id : Option String
  is_latest : Option String
  storage_class : Option String
  owner_id : Option String
  owner_name : Option String
  content_type : Option String
deriving DecidableEq, Repr

/-- Models Python dict assignment `d[k] = v`: overwrite in place when
the key exists, else append, preserving insertion order. -/
def dictSet (d : List (String × Option String)) (k : String) (v : Option String) :
    List (String × Option String) :=
  if d.any (fun p => p.1 == k) then
    d.map (fun p => if p.1 == k then (k, v) else p)
  else d ++ [(k, v)]

/-- Embeds the metadata-key computation of `Object.fromxml`
(datatypes.py line 189): `child.tag.split("}")[1] if "}" in child.tag
else child.tag`. -/
def metadataKey (t : String) : String :=
  if t.contains '\x7d' then (t.splitOn "\x7d").getD 1 "" else t

/-- Embeds `Object.fromxml` (datatypes.py lines 168-204).  The only
modelled failure is `int(Size)` on non-numeric text; timestamp parsing
is abstract (see `strptime_rfc3339`). -/
def Object.fromxml (element : XmlElem) (bucket_name : String) :
    Except PyErr Object :=
  let last_modified := (findtext element "LastModified").map strptime_rfc3339
  let etag := (findtext element "ETag").map pyReplaceQuote
  match (match findtext element "Size" with
         | none => Except.ok none
         | some t => (pyInt t).map some : Except PyErr (Option Int)) with
  | Except.error e => Except.error e
  | Except.ok size =>
    let ownerTag := find element "Owner"
    let owner_id := match ownerTag with
      | none => none
      | some t => findtext t "ID"
    let owner_name := match ownerTag with
      | none => none
      | some t => findtext t "DisplayName"
    let mchildren := match find element "UserMetadata" with
      | none => []
      | some t => t.children
    let metadata := mchildren.foldl
      (fun d c => dictSet d (metadataKey c.tag) c.text) []
    Except.ok (Object.mk bucket_name (findtext element "Key")
      last_modified etag size (some metadata)
      (findtext element "VersionId") (findtext element "IsLatest")
      (findtext element "StorageClass") owner_id owner_name none)

/-- Embeds the CommonPrefixes branch of `parse_list_objects`
(datatypes.py lines 217-221): `Object(bucket_name, findtext(tag,
"Prefix"))` with every other constructor argument left at its `None`
default. -/
def objectOfCommonPfx (bucket_name : String) (tag : XmlElem) : Object :=
  Object.mk bucket_name (findtext tag "Prefix")
    none none none none none none none none none none

/-- Embeds `parse_list_objects` (datatypes.py lines 207-236): parse
Contents, Version, CommonPrefixes and DeleteMarker children in that
order into one object list; record the last Contents key before the
concatenation; derive `is_truncated` and the continuation token and
version-id marker. -/
def parse_list_objects (response : HttpResponse) (bucket_name : String) :
    Except PyErr (List Object × Bool × Option String × Option String) :=
  let element := response.data
  match mapExcept (fun tag => Object.fromxml tag bucket_name)
      (findall element "Contents") with
  | Except.error e => Except.error e
  | Except.ok contentsObjs =>
    let marker := contentsObjs.getLast?.bind (fun o => o.object_name)
    match mapExcept (fun tag => Object.fromxml tag bucket_name)
        (findall element "Version") with
    | Except.error e => Except.error e
    | Except.ok versionObjs =>
      let cpObjs := (findall element "CommonPrefixes").map
        (objectOfCommonPfx bucket_name)
      match mapExcept (fun tag => Object.fromxml tag bucket_name)
          (findall element "DeleteMarker") with
      | Except.error e => Except.error e
      | Except.ok dmObjs =>
        let objects := contentsObjs ++ versionObjs ++ cpObjs ++ dmObjs
        let is_truncated := pyLower ((findtext element "IsTruncated").getD "") == "true"
        let key_marker := findtext element "NextKeyMarker"
        let version_id_marker := findtext element "NextVersionIdMarker"
        let ct0 := findtext element "NextContinuationToken"
        let ct1 := match key_marker with
          | some k => some k
          | none => ct0
        let ct2 := match ct1 with
          | none => findtext element "NextMarker"
          | some c => some c
        let ct3 := match ct2 with
          | none => if is_truncated then marker else none
          | some c => some c
        Except.ok (objects, is_truncated, ct3, version_id_marker)

/-- Embeds `CompleteMultipartUploadResult` (datatypes.py lines 239-281):
four fields from the XML body (the ETag quote-stripped when truthy), the
version ID from the `x-amz-version-id` response header, and the verbatim
header list. -/
structure CompleteMultipartUploadResult where
  bucket_name : Option String
  object_name : Option String
  location : Option String
  etag : Option String
  version_id : Option String
  http_headers : List (String × String)
deriving DecidableEq, Repr

/-- Embeds `CompleteMultipartUploadResult.__init__` (datatypes.py lines
242-251). -/
def CompleteMultipartUploadResult.fromResponse (response : HttpResponse) :
    CompleteMultipartUploadResult :=
  let element := response.data
  let etag := match findtext element "ETag" with
    | none => none
    | some t => if t = "" then some t else some (pyReplaceQuote t)
  CompleteMultipartUploadResult.mk
    (findtext element "Bucket") (findtext element "Key")
    (findtext element "Location") etag
    (getheader response "x-amz-version-id") response.headers

/-- Embeds `Part` (datatypes.py lines 284-311).  `part_number` is the
raw PartNumber text: the source applies no integer conversion to it. -/
structure Part where
  part_number : String
  etag : String
  last_modified : Option Instant
  size : Option StrOrInt
deriving DecidableEq, Repr

/-- Embeds `Part.fromxml` (datatypes.py lines 313-324): required
PartNumber and ETag (quote-stripped), optional LastModified and Size
(`if size: size = int(size)`). -/
def Part.fromxml (element : XmlElem) : Except PyErr Part :=
  match findtext_strict element "PartNumber" with
  | Except.error e => Except.error e
  | Except.ok part_number =>
    match findtext_strict element "ETag" with
    | Except.error e => Except.error e
    | Except.ok etag0 =>
      let etag := pyReplaceQuote etag0
      let last_modified := (findtext element "LastModified").map strptime_rfc3339
      match truthyIntField (findtext element "Size") with
      | Except.error e => Except.error e
      | Except.ok size => Except.ok (Part.mk part_number etag last_modified size)

/-- Embeds `ListPartsResult` (datatypes.py lines 327-423). -/
structure ListPartsResult where
  bucket_name : Option String
  object_name : Option String
  initiator_id : Option String
  initiator_name : Option String
  owner_id : Option String
  owner_name : Option String
  storage_class : Option String
  part_number_marker : Option String
  next_part_number_marker : Option StrOrInt
  max_parts : Option StrOrInt
  is_truncated : Bool
  parts : List Part
deriving DecidableEq, Repr

/-- Embeds `ListPartsResult.__init__` (datatypes.py lines 330-363):
optional Initiator/Owner sub-elements, numeric markers converted when
truthy, `is_truncated` true iff the IsTruncated text is present and
lowercases to "true", parts parsed in document order. -/
def ListPartsResult.fromResponse (response : HttpResponse) :
    Except PyErr ListPartsResult :=
  let element := response.data
  let initTag := find element "Initiator"
  let ownTag := find element "Owner"
  match truthyIntField (findtext element "NextPartNumberMarker") with
  | Except.error e => Except.error e
  | Except.ok next_part_number_marker =>
    match truthyIntField (findtext element "MaxParts") with
    | Except.error e => Except.error e
    | Except.ok max_parts =>
      let is_truncated := match findtext element "IsTruncated" with
        | none => false
        | some t => pyLower t == "true"
      match mapExcept Part.fromxml (findall element "Part") with
      | Except.error e => Except.error e
      | Except.ok parts =>
        Except.ok (ListPartsResult.mk
          (findtext element "Bucket") (findtext element "Key")
          (match initTag with | none => none | some t => findtext t "ID")
          (match initTag with | none => none | some t => findtext t "DisplayName")
          (match ownTag with | none => none | some t => findtext t "ID")
          (match ownTag with | none => none | some t => findtext t "DisplayName")
          (findtext element "StorageClass")
          (findtext element "PartNumberMarker")
          next_part_number_marker max_parts is_truncated parts)

/-- Embeds `Upload` (datatypes.py lines 426-489). -/
structure Upload where
  object_name : String
  upload_id : Option String
  initiator_id : Option String
  initiator_name : Option String
  owner_id : Option String
  owner_name : Option String
  storage_class : Option String
  initiated_time : Option StrOrTime
deriving DecidableEq, Repr

/-- Embeds `Upload.__init__` (datatypes.py lines 429-449): required Key,
percent-decoded; optional Initiator/Owner sub-elements; Initiated parsed
when truthy. -/
def Upload.fromElement (element : XmlElem) : Except PyErr Upload :=
  match findtext_strict element "Key" with
  | Except.error e => Except.error e
  | Except.ok key =>
    let initTag := find element "Initiator"
    let ownTag := find element "Owner"
    Except.ok (Upload.mk (unquote key) (findtext element "UploadId")
      (match initTag with | none => none | some t => findtext t "ID")
      (match initTag with | none => none | some t => findtext t "DisplayName")
      (match ownTag with | none => none | some t => findtext t "ID")
      (match ownTag with | none => none | some t => findtext t "DisplayName")
      (findtext element "StorageClass")
      (truthyTimeField (findtext element "Initiated")))

/-- Embeds `ListMultipartUploadsResult` (datatypes.py lines 492-554). -/
structure ListMultipartUploadsResult where
  bucket_name : Option String
  key_marker : Option String
  upload_id_marker : Option String
  next_key_marker : Option String
  next_upload_id_marker : Option String
  max_uploads : Option StrOrInt
  is_truncated : Bool
  uploads : List Upload
deriving DecidableEq, Repr

/-- Embeds `ListMultipartUploadsResult.__init__` (datatypes.py lines
495-514): key markers percent-decoded when truthy, MaxUploads converted
when truthy, `is_truncated` true iff the IsTruncated text is present and
lowercases to "true", uploads parsed in document order. -/
def ListMultipartUploadsResult.fromResponse (response : HttpResponse) :
    Except PyErr ListMultipartUploadsResult :=
  let element := response.data
  match truthyIntField (findtext element "MaxUploads") with
  | Except.error e => Except.error e
  | Except.ok max_uploads =>
    let is_truncated := match findtext element "IsTruncated" with
      | none => false
      | some t => pyLower t == "true"
    match mapExcept Upload.fromElement (findall element "Upload") with
    | Except.error e => Except.error e
    | Except.ok uploads =>
      Except.ok (ListMultipartUploadsResult.mk
        (findtext element "Bucket")
        (truthyUnquoteField (findtext element "KeyMarker"))
        (findtext element "UploadIdMarker")
        (truthyUnquoteField (findtext element "NextKeyMarker"))
        (findtext element "NextUploadIdMarker")
        max_uploads is_truncated uploads)

/-- Quote removal leaves a quote-free string unchanged. -/
theorem pyReplaceQuote_of_no_quote (s : String) (hs : ∀ c ∈ s.data, c ≠ '"') :
    pyReplaceQuote s = s := by
  unfold pyReplaceQuote
  cases s with
  | mk l =>
    congr 1
    refine List.filter_eq_self.mpr ?_
    intro c hc
    simpa using hs c hc

/-- Quote removal on a quote-wrapped quote-free payload returns the payload. -/
theorem pyReplaceQuote_strip_wrap (s : String) (hs : ∀ c ∈ s.data, c ≠ '"') :
    pyReplaceQuote ("\"" ++ s ++ "\"") = s := by
  cases s with
  | mk l =>
    unfold pyReplaceQuote
    have hd : (("\"" : String) ++ String.mk l ++ "\"").data = '"' :: (l ++ ['"']) := rfl
    rw [hd]
    congr 1
    have hl : List.filter (fun c => !(c == '"')) l = l := by
      refine List.filter_eq_self.mpr ?_
      intro c hc
      simpa using hs c hc
    simp [List.filter_cons, List.filter_append, hl]

/-- A quote-wrapped string is never empty. -/
theorem quote_wrap_ne_empty (s : String) : ("\"" ++ s ++ "\"") ≠ "" := by
  cases s with
  | mk l =>
    intro h
    have h2 : ('"' :: (l ++ ['"'])) = ([] : List Char) := congrArg String.data h
    exact List.noConfusion h2

/-- The strict text lookup only ever fails with a MalformedResponse that
names the missing tag. -/
theorem findtext_strict_error_shape (element : XmlElem) (name : String) (e : PyErr)
    (h : findtext_strict element name = Except.error e) :
    e = PyErr.malformedResponse name := by
  unfold findtext_strict at h
  split at h
  · cases h
    rfl
  · split at h
    · cases h
      rfl
    · cases h

/-- An absent or empty tag makes the strict text lookup fail with a
MalformedResponse naming the tag. -/
theorem findtext_strict_of_absent_or_empty (element : XmlElem) (name : String)
    (h : findtext element name = none ∨ findtext element name = some "") :
    findtext_strict element name = Except.error (PyErr.malformedResponse name) := by
  rcases h with h | h <;> simp [findtext_strict, h]

/-- A present nonempty tag makes the strict text lookup succeed. -/
theorem findtext_strict_of_present (element : XmlElem) (name : String) (t : String)
    (h : findtext element name = some t) (ht : t ≠ "") :
    findtext_strict element name = Except.ok t := by
  unfold findtext_strict
  rw [h]
  simp [ht]

/-- A successful strict text lookup returns the present, nonempty text. -/
theorem findtext_strict_ok_inv (element : XmlElem) (name : String) (t : String)
    (h : findtext_strict element name = Except.ok t) :
    findtext element name = some t ∧ t ≠ "" := by
  unfold findtext_strict at h
  split at h
  · cases h
  · rename_i t0 h0
    split at h
    · cases h
    · rename_i hne
      cases h
      exact ⟨h0, hne⟩

/-- A successful `mapExcept` relates output to input pointwise, in order. -/
theorem mapExcept_ok_forall2 {α β : Type} (f : α → Except PyErr β) :
    ∀ (l : List α) (bs : List β), mapExcept f l = Except.ok bs →
      List.Forall₂ (fun b a => f a = Except.ok b) bs l := by
  intro l
  induction l with
  | nil =>
    intro bs h
    unfold mapExcept at h
    cases h
    exact List.Forall₂.nil
  | cons a rest ih =>
    intro bs h
    unfold mapExcept at h
    split at h
    · cases h
    · rename_i b hb
      split at h
      · cases h
      · rename_i bs' hbs
        cases h
        exact List.Forall₂.cons hb (ih bs' hbs)

/-- Field characterization of a successfully parsed `Part`. -/
theorem part_fromxml_ok (element : XmlElem) (p : Part)
    (h : Part.fromxml element = Except.ok p) :
    findtext_strict element "PartNumber" = Except.ok p.part_number ∧
    (∃ t, findtext_strict element "ETag" = Except.ok t ∧ p.etag = pyReplaceQuote t) ∧
    p.last_modified = (findtext element "LastModified").map strptime_rfc3339 ∧
    truthyIntField (findtext element "Size") = Except.ok p.size := by
  simp only [Part.fromxml] at h
  split at h
  · cases h
  · rename_i pn hpn
    split at h
    · cases h
    · rename_i et het
      split at h
      · cases h
      · rename_i sz hsz
        cases h
        exact ⟨hpn, ⟨et, het, rfl⟩, rfl, hsz⟩

/-- Field characterization of a successfully parsed `Object`. -/
theorem object_fromxml_ok (element : XmlElem) (b : String) (o : Object)
    (h : Object.fromxml element b = Except.ok o) :
    o.bucket_name = b ∧
    o.object_name = findtext element "Key" ∧
    o.last_modified = (findtext element "LastModified").map strptime_rfc3339 ∧
    o.etag = (findtext element "ETag").map pyReplaceQuote ∧
    (∃ m, o.metadata = some m) ∧
    o.version_id = findtext element "VersionId" ∧
    o.content_type = none := by
  simp only [Object.fromxml] at h
  split at h
  · cases h
  · cases h
    exact ⟨rfl, rfl, rfl, rfl, ⟨_, rfl⟩, rfl, rfl⟩

/-- The continuation-token precedence stated by the spec: NextKeyMarker,
else NextContinuationToken, else NextMarker, else the synthetic marker
when truncated, else absent.  Compared below with the chain of
reassignments in `parse_list_objects`. -/
def tokenByPrecedence (element : XmlElem) (it : Bool) (lastKey : Option String) :
    Option String :=
  match findtext element "NextKeyMarker" with
  | some k => some k
  | none =>
    match findtext element "NextContinuationToken" with
    | some c => some c
    | none =>
      match findtext element "NextMarker" with
      | some m => some m
      | none => if it then lastKey else none

/-- Full inversion of a successful `parse_list_objects`. -/
theorem parse_list_objects_ok (r : HttpResponse) (b : String)
    (objs : List Object) (it : Bool) (ct vm : Option String)
    (h : parse_list_objects r b = Except.ok (objs, it, ct, vm)) :
    ∃ cs vs ds,
      mapExcept (fun tag => Object.fromxml tag b) (findall r.data "Contents")
        = Except.ok cs ∧
      mapExcept (fun tag => Object.fromxml tag b) (findall r.data "Version")
        = Except.ok vs ∧
      mapExcept (fun tag => Object.fromxml tag b) (findall r.data "DeleteMarker")
        = Except.ok ds ∧
      objs = cs ++ vs
        ++ (findall r.data "CommonPrefixes").map (objectOfCommonPfx b) ++ ds ∧
      it = ((pyLower ((findtext r.data "IsTruncated").getD "")) == "true") ∧
      ct = tokenByPrecedence r.data it (cs.getLast?.bind (fun o => o.object_name)) ∧
      vm = findtext r.data "NextVersionIdMarker" := by
  simp only [parse_list_objects] at h
  split at h
  · cases h
  · rename_i cs hcs
    split at h
    · cases h
    · rename_i vs hvs
      split at h
      · cases h
      · rename_i ds hds
        rw [Except.ok.injEq, Prod.mk.injEq, Prod.mk.injEq, Prod.mk.injEq] at h
        obtain ⟨h1, h2, h3, h4⟩ := h
        subst h1
        subst h2
        subst h3
        subst h4
        refine ⟨cs, vs, ds, hcs, hvs, hds, rfl, rfl, ?_, rfl⟩
        unfold tokenByPrecedence
        cases hk : findtext r.data "NextKeyMarker" with
        | some k => rfl
        | none =>
          cases hc0 : findtext r.data "NextContinuationToken" with
          | some c => rfl
          | none =>
            cases hm : findtext r.data "NextMarker" with
            | some m => rfl
            | none => rfl

/-- The `is_truncated` flag of a successfully assembled `ListPartsResult`. -/
theorem listparts_ok_is_truncated (r : HttpResponse) (lp : ListPartsResult)
    (h : ListPartsResult.fromResponse r = Except.ok lp) :
    lp.is_truncated = (match findtext r.data "IsTruncated" with
      | none => false
      | some t => pyLower t == "true") := by
  simp only [ListPartsResult.fromResponse] at h
  split at h
  · cases h
  · split at h
    · cases h
    · split at h
      · cases h
      · cases h
        rfl

/-- The `is_truncated` flag of a successfully assembled
`ListMultipartUploadsResult`. -/
theorem listmu_ok_is_truncated (r : HttpResponse) (lm : ListMultipartUploadsResult)
    (h : ListMultipartUploadsResult.fromResponse r = Except.ok lm) :
    lm.is_truncated = (match findtext r.data "IsTruncated" with
      | none => false
      | some t => pyLower t == "true") := by
  simp only [ListMultipartUploadsResult.fromResponse] at h
  split at h
  · cases h
  · split at h
    · cases h
    · cases h
      rfl

/-- The fields of `CompleteMultipartUploadResult`, read off the
assembler. -/
theorem cmu_fields (r : HttpResponse) :
    (CompleteMultipartUploadResult.fromResponse r).etag
      = (match findtext r.data "ETag" with
         | none => none
         | some t => if t = "" then some t else some (pyReplaceQuote t)) ∧
    (CompleteMultipartUploadResult.fromResponse r).version_id
      = getheader r "x-amz-version-id" ∧
    (CompleteMultipartUploadResult.fromResponse r).bucket_name
      = findtext r.data "Bucket" ∧
    (CompleteMultipartUploadResult.fromResponse r).object_name
      = findtext r.data "Key" ∧
    (CompleteMultipartUploadResult.fromResponse r).location
      = findtext r.data "Location" :=
  ⟨rfl, rfl, rfl, rfl, rfl⟩

/-- Leaf XML element with text content, used by concrete witness
documents. -/
def leafElem (tag : String) (text : String) : XmlElem :=
  XmlElem.mk tag (some text) []

/-- Follows the spec's words (data-model table: `part_number: integer
(required)`): the part number as the spec describes it, the required
PartNumber text converted to an integer, for comparison with the
source's `Part.fromxml`. -/
def part_number_as_specified (element : XmlElem) : Except PyErr Int :=
  match findtext_strict element "PartNumber" with
  | Except.error e => Except.error e
  | Except.ok t => pyInt t

/-- A Part element with PartNumber text `07` and ETag text `e1`. -/
def partElem07 : XmlElem :=
  XmlElem.mk "Part" none [leafElem "PartNumber" "07", leafElem "ETag" "e1"]

/-- C2: counterexample.  For the Part element with PartNumber text `07`,
the value the code stores in `part_number` is the raw string `07`, while
the claim says the text is converted to an integer: the conversion the
spec describes yields the integer 7, whose decimal rendering `7` is not
the stored string `07`, so no integer conversion took place. -/
theorem claim_C2_counterexample :
    (Part.fromxml partElem07).map Part.part_number = Except.ok "07" ∧
    part_number_as_specified partElem07 = Except.ok 7 ∧
    ("07" : String) ≠ "7" := by
  exact ⟨rfl, rfl, by decide⟩

/-- C2 (amended): for every Part element parsed by `Part.fromxml`, the
resulting `part_number` is the raw text of the required PartNumber
element, kept as a string; the code applies no integer conversion to
it. -/
theorem claim_C2 (element : XmlElem) (p : Part)
    (h : Part.fromxml element = Except.ok p) :
    findtext_strict element "PartNumber" = Except.ok p.part_number :=
  (part_fromxml_ok element p h).1

/-- C2 witness: the amended claim evaluated on the `07`/`e1` part. -/
theorem claim_C2_witness :
    findtext_strict partElem07 "PartNumber" = Except.ok "07" :=
  claim_C2 partElem07 (Part.mk "07" "e1" none none) rfl

/-- C7: `Part.fromxml` fails with a MalformedResponse error when the
Part element's ETag (or PartNumber) is absent or empty; and an element
with an ETag but no LastModified and no Size parses to a part whose
`last_modified` and `size` are both absent. -/
theorem claim_C7 (el1 el2 el3 : XmlElem) (p : Part)
    (h1 : findtext el1 "ETag" = none ∨ findtext el1 "ETag" = some "")
    (h2 : findtext el2 "PartNumber" = none ∨ findtext el2 "PartNumber" = some "")
    (h3 : Part.fromxml el3 = Except.ok p)
    (hlm : findtext el3 "LastModified" = none)
    (hsz : findtext el3 "Size" = none) :
    (∃ t, Part.fromxml el1 = Except.error (PyErr.malformedResponse t)) ∧
    (∃ t, Part.fromxml el2 = Except.error (PyErr.malformedResponse t)) ∧
    p.last_modified = none ∧ p.size = none := by
  refine ⟨?_, ?_, ?_, ?_⟩
  · cases hpn : findtext_strict el1 "PartNumber" with
    | error e =>
      refine ⟨"PartNumber", ?_⟩
      have he := findtext_strict_error_shape el1 "PartNumber" e hpn
      subst he
      simp [Part.fromxml, hpn]
    | ok pn =>
      refine ⟨"ETag", ?_⟩
      simp [Part.fromxml, hpn, findtext_strict_of_absent_or_empty el1 "ETag" h1]
  · refine ⟨"PartNumber", ?_⟩
    simp [Part.fromxml, findtext_strict_of_absent_or_empty el2 "PartNumber" h2]
  · have hm := (part_fromxml_ok el3 p h3).2.2.1
    rw [hm, hlm]
    rfl
  · have hs := (part_fromxml_ok el3 p h3).2.2.2
    rw [hsz] at hs
    simp [truthyIntField] at hs
    exact hs.symm

/-- A Part element with no ETag. -/
def partElemNoEtag : XmlElem :=
  XmlElem.mk "Part" none [leafElem "PartNumber" "1"]

/-- A Part element with no PartNumber. -/
def partElemNoNumber : XmlElem :=
  XmlElem.mk "Part" none [leafElem "ETag" "e1"]

/-- A Part element with the two required fields only. -/
def partElemMinimal : XmlElem :=
  XmlElem.mk "Part" none [leafElem "PartNumber" "1", leafElem "ETag" "\"e1\""]

/-- C7 witness: the error cases and the optional-fields case evaluated
on concrete Part elements. -/
theorem claim_C7_witness :
    (∃ t, Part.fromxml partElemNoEtag = Except.error (PyErr.malformedResponse t)) ∧
    (∃ t, Part.fromxml partElemNoNumber = Except.error (PyErr.malformedResponse t)) ∧
    (Part.mk "1" "e1" none none).last_modified = none ∧
    (Part.mk "1" "e1" none none).size = none :=
  claim_C7 partElemNoEtag partElemNoNumber partElemMinimal (Part.mk "1" "e1" none none)
    (Or.inl rfl) (Or.inl rfl) rfl rfl rfl

/-- C6: in every entity carrying an ETag (Object, Part,
CompleteMultipartUploadResult), an ETag whose XML text is surrounded by
quote characters is reported without those quotes. -/
theorem claim_C6 (s : String) (hs : ∀ c ∈ s.data, c ≠ '"')
    (el1 : XmlElem) (b : String) (o : Object)
    (h1 : findtext el1 "ETag" = some ("\"" ++ s ++ "\""))
    (ho : Object.fromxml el1 b = Except.ok o)
    (el2 : XmlElem) (p : Part)
    (h2 : findtext el2 "ETag" = some ("\"" ++ s ++ "\""))
    (hp : Part.fromxml el2 = Except.ok p)
    (r : HttpResponse)
    (h3 : findtext r.data "ETag" = some ("\"" ++ s ++ "\"")) :
    o.etag = some s ∧ p.etag = s ∧
    (CompleteMultipartUploadResult.fromResponse r).etag = some s := by
  refine ⟨?_, ?_, ?_⟩
  · have he := (object_fromxml_ok el1 b o ho).2.2.2.1
    rw [he, h1]
    simp [pyReplaceQuote_strip_wrap s hs]
  · obtain ⟨t, hstrict, hetag⟩ := (part_fromxml_ok el2 p hp).2.1
    obtain ⟨hft, hne⟩ := findtext_strict_ok_inv el2 "ETag" t hstrict
    have ht := Option.some.inj (h2.symm.trans hft)
    rw [hetag, ← ht]
    exact pyReplaceQuote_strip_wrap s hs
  · rw [(cmu_fields r).1]
    simp only [h3]
    rw [if_neg (quote_wrap_ne_empty s), pyReplaceQuote_strip_wrap s hs]

/-- A Contents element with a quote-wrapped ETag. -/
def objElemQuoted : XmlElem :=
  XmlElem.mk "Contents" none [leafElem "Key" "k", leafElem "ETag" "\"abc123\""]

/-- A Part element with a quote-wrapped ETag. -/
def partElemQuoted : XmlElem :=
  XmlElem.mk "Part" none [leafElem "PartNumber" "1", leafElem "ETag" "\"abc123\""]

/-- A CompleteMultipartUpload response with a quote-wrapped ETag. -/
def cmuRespQuoted : HttpResponse :=
  HttpResponse.mk
    (XmlElem.mk "CompleteMultipartUploadResult" none [leafElem "ETag" "\"abc123\""]) []

/-- The Object parsed from `objElemQuoted`. -/
def objQuoted : Object :=
  Object.mk "bkt" (some "k") none (some "abc123") none (some [])
    none none none none none none

/-- C6 witness: the quote-wrapped ETag text `"abc123"` parses to
`abc123` in all three entities. -/
theorem claim_C6_witness :
    objQuoted.etag = some "abc123" ∧
    (Part.mk "1" "abc123" none none).etag = "abc123" ∧
    (CompleteMultipartUploadResult.fromResponse cmuRespQuoted).etag = some "abc123" :=
  claim_C6 "abc123" (by decide) objElemQuoted "bkt" objQuoted rfl rfl
    partElemQuoted (Part.mk "1" "abc123" none none) rfl rfl cmuRespQuoted rfl

/-- C10: quote removal deletes every quote character anywhere in the
ETag text, not only a surrounding pair, in Object, Part and
CompleteMultipartUploadResult alike. -/
theorem claim_C10 (t : String)
    (el1 : XmlElem) (b : String) (o : Object)
    (h1 : findtext el1 "ETag" = some t)
    (ho : Object.fromxml el1 b = Except.ok o)
    (el2 : XmlElem) (p : Part)
    (h2 : findtext el2 "ETag" = some t)
    (hp : Part.fromxml el2 = Except.ok p)
    (r : HttpResponse)
    (h3 : findtext r.data "ETag" = some t) :
    o.etag = some (String.mk (t.data.filter (fun c => !(c == '"')))) ∧
    p.etag = String.mk (t.data.filter (fun c => !(c == '"'))) ∧
    (CompleteMultipartUploadResult.fromResponse r).etag
      = some (String.mk (t.data.filter (fun c => !(c == '"')))) := by
  refine ⟨?_, ?_, ?_⟩
  · have he := (object_fromxml_ok el1 b o ho).2.2.2.1
    rw [he, h1]
    rfl
  · obtain ⟨t2, hstrict, hetag⟩ := (part_fromxml_ok el2 p hp).2.1
    obtain ⟨hft, hne⟩ := findtext_strict_ok_inv el2 "ETag" t2 hstrict
    have ht := Option.some.inj (h2.symm.trans hft)
    rw [hetag, ← ht]
    rfl
  · rw [(cmu_fields r).1]
    simp only [h3]
    by_cases hte : t = ""
    · subst hte
      rfl
    · rw [if_neg hte]
      rfl

/-- A Contents element whose ETag text has an interior quote. -/
def objElemInnerQ : XmlElem :=
  XmlElem.mk "Contents" none [leafElem "ETag" "a\"b"]

/-- A Part element whose ETag text has an interior quote. -/
def partElemInnerQ : XmlElem :=
  XmlElem.mk "Part" none [leafElem "PartNumber" "2", leafElem "ETag" "a\"b"]

/-- A CompleteMultipartUpload response whose ETag text has an interior
quote. -/
def cmuRespInnerQ : HttpResponse :=
  HttpResponse.mk (XmlElem.mk "Result" none [leafElem "ETag" "a\"b"]) []

/-- The Object parsed from `objElemInnerQ`. -/
def objInnerQ : Object :=
  Object.mk "bkt" none none (some "ab") none (some [])
    none none none none none none

/-- C10 witness: the ETag text `a"b` parses to `ab` in all three
entities. -/
theorem claim_C10_witness :
    objInnerQ.etag = some "ab" ∧
    (Part.mk "2" "ab" none none).etag = "ab" ∧
    (CompleteMultipartUploadResult.fromResponse cmuRespInnerQ).etag = some "ab" :=
  claim_C10 "a\"b" objElemInnerQ "bkt" objInnerQ rfl rfl
    partElemInnerQ (Part.mk "2" "ab" none none) rfl rfl cmuRespInnerQ rfl

/-- C1: the continuation token returned by `parse_list_objects` follows
the precedence NextKeyMarker, else NextContinuationToken, else
NextMarker, else — when truncated — the object name of the last Contents
entry taken before the Version/CommonPrefixes/DeleteMarker
concatenation, else absent. -/
theorem claim_C1 (r : HttpResponse) (b : String)
    (objs : List Object) (it : Bool) (ct vm : Option String) (cs : List Object)
    (hc : mapExcept (fun tag => Object.fromxml tag b) (findall r.data "Contents")
      = Except.ok cs)
    (h : parse_list_objects r b = Except.ok (objs, it, ct, vm)) :
    ct = tokenByPrecedence r.data it (cs.getLast?.bind (fun o => o.object_name)) := by
  obtain ⟨cs2, vs, ds, hc2, hv, hd, hobjs, hit, hct, hvm⟩ :=
    parse_list_objects_ok r b objs it ct vm h
  injection hc.symm.trans hc2 with hcs
  subst hcs
  exact hct

/-- A legacy truncated listing: one Contents entry with Key `zzz`,
IsTruncated `true`, and no marker elements. -/
def listRespTrunc : HttpResponse :=
  HttpResponse.mk (XmlElem.mk "ListBucketResult" none
    [XmlElem.mk "Contents" none [leafElem "Key" "zzz"],
     leafElem "IsTruncated" "true"]) []

/-- The object parsed from the single Contents entry of
`listRespTrunc`. -/
def objZzz : Object :=
  Object.mk "bkt" (some "zzz") none none none (some [])
    none none none none none none

/-- C1 witness: on the truncated legacy listing the derived token is the
synthetic marker `zzz`, matching the precedence chain. -/
theorem claim_C1_witness :
    (some "zzz" : Option String)
      = tokenByPrecedence listRespTrunc.data true
          ([objZzz].getLast?.bind (fun o => o.object_name)) :=
  claim_C1 listRespTrunc "bkt" [objZzz] true (some "zzz") none [objZzz] rfl rfl

/-- C3: the object sequence is exactly the parsed Contents entries, then
Version, then CommonPrefixes, then DeleteMarker entries, each group in
document order. -/
theorem claim_C3 (r : HttpResponse) (b : String)
    (objs : List Object) (it : Bool) (ct vm : Option String)
    (cs vs ds : List Object)
    (hc : mapExcept (fun tag => Object.fromxml tag b) (findall r.data "Contents")
      = Except.ok cs)
    (hv : mapExcept (fun tag => Object.fromxml tag b) (findall r.data "Version")
      = Except.ok vs)
    (hd : mapExcept (fun tag => Object.fromxml tag b) (findall r.data "DeleteMarker")
      = Except.ok ds)
    (h : parse_list_objects r b = Except.ok (objs, it, ct, vm)) :
    objs = cs ++ vs
      ++ (findall r.data "CommonPrefixes").map (objectOfCommonPfx b) ++ ds := by
  obtain ⟨cs2, vs2, ds2, hc2, hv2, hd2, hobjs, _, _, _⟩ :=
    parse_list_objects_ok r b objs it ct vm h
  injection hc.symm.trans hc2 with hcs
  subst hcs
  injection hv.symm.trans hv2 with hvs
  subst hvs
  injection hd.symm.trans hd2 with hds
  subst hds
  exact hobjs

/-- The CommonPrefixes entry used in the combined listing document. -/
def cpTagFull : XmlElem :=
  XmlElem.mk "CommonPrefixes" none [leafElem "Prefix" "p/"]

/-- A listing document with Contents entries `a`, `b`, a Version entry
`c`, a CommonPrefixes entry `p/` and a DeleteMarker entry `d`. -/
def listRespFull : HttpResponse :=
  HttpResponse.mk (XmlElem.mk "ListBucketResult" none
    [XmlElem.mk "Contents" none [leafElem "Key" "a"],
     XmlElem.mk "Contents" none [leafElem "Key" "b"],
     XmlElem.mk "Version" none [leafElem "Key" "c", leafElem "VersionId" "v1"],
     cpTagFull,
     XmlElem.mk "DeleteMarker" none [leafElem "Key" "d", leafElem "VersionId" "v2"]]) []

/-- Object parsed from the Contents entry with Key `a`. -/
def objA : Object :=
  Object.mk "bkt" (some "a") none none none (some []) none none none none none none

/-- Object parsed from the Contents entry with Key `b`. -/
def objB : Object :=
  Object.mk "bkt" (some "b") none none none (some []) none none none none none none

/-- Object parsed from the Version entry with Key `c`. -/
def objC : Object :=
  Object.mk "bkt" (some "c") none none none (some []) (some "v1")
    none none none none none

/-- Object produced from the CommonPrefixes entry `p/`. -/
def objP : Object :=
  Object.mk "bkt" (some "p/") none none none none none none none none none none

/-- Object parsed from the DeleteMarker entry with Key `d`. -/
def objD : Object :=
  Object.mk "bkt" (some "d") none none none (some []) (some "v2")
    none none none none none

/-- C3 witness: the combined document yields exactly the concatenation
[A, B, C, P, D]. -/
theorem claim_C3_witness :
    [objA, objB, objC, objP, objD]
      = [objA, objB] ++ [objC]
        ++ (findall listRespFull.data "CommonPrefixes").map (objectOfCommonPfx "bkt")
        ++ [objD] :=
  claim_C3 listRespFull "bkt" [objA, objB, objC, objP, objD] false none none
    [objA, objB] [objC] [objD] rfl rfl rfl rfl

/-- C4: each CommonPrefixes entry becomes an Object whose only populated
field is the object name (the Prefix text); every other field is absent,
and in particular its metadata is `none` while every Object parsed from
a Contents/Version/DeleteMarker element carries `some` metadata dict, so
the two are distinguishable. -/
theorem claim_C4 (r : HttpResponse) (b : String)
    (objs : List Object) (it : Bool) (ct vm : Option String)
    (h : parse_list_objects r b = Except.ok (objs, it, ct, vm))
    (tag : XmlElem) (htag : tag ∈ findall r.data "CommonPrefixes") :
    objectOfCommonPfx b tag ∈ objs ∧
    (objectOfCommonPfx b tag).object_name = findtext tag "Prefix" ∧
    (objectOfCommonPfx b tag).last_modified = none ∧
    (objectOfCommonPfx b tag).etag = none ∧
    (objectOfCommonPfx b tag).size = none ∧
    (objectOfCommonPfx b tag).metadata = none ∧
    (objectOfCommonPfx b tag).version_id = none ∧
    (objectOfCommonPfx b tag).is_latest = none ∧
    (objectOfCommonPfx b tag).storage_class = none ∧
    (objectOfCommonPfx b tag).owner_id = none ∧
    (objectOfCommonPfx b tag).owner_name = none ∧
    (objectOfCommonPfx b tag).content_type = none ∧
    (∀ el o2, Object.fromxml el b = Except.ok o2 → o2.metadata ≠ none) := by
  obtain ⟨cs, vs, ds, _, _, _, hobjs, _, _, _⟩ :=
    parse_list_objects_ok r b objs it ct vm h
  subst hobjs
  refine ⟨?_, rfl, rfl, rfl, rfl, rfl, rfl, rfl, rfl, rfl, rfl, rfl, ?_⟩
  · have hmem : objectOfCommonPfx b tag
        ∈ (findall r.data "CommonPrefixes").map (objectOfCommonPfx b) :=
      List.mem_map_of_mem _ htag
    exact List.mem_append_left _ (List.mem_append_right _ hmem)
  · intro el o2 h2 hmet
    obtain ⟨m, hm⟩ := (object_fromxml_ok el b o2 h2).2.2.2.2.1
    rw [hm] at hmet
    exact Option.noConfusion hmet

/-- C4 witness: the CommonPrefixes entry `p/` of the combined document
appears in the parsed objects with only its object name populated. -/
theorem claim_C4_witness :
    objectOfCommonPfx "bkt" cpTagFull ∈ [objA, objB, objC, objP, objD] ∧
    (objectOfCommonPfx "bkt" cpTagFull).object_name = some "p/" ∧
    (objectOfCommonPfx "bkt" cpTagFull).metadata = none ∧
    (objectOfCommonPfx "bkt" cpTagFull).etag = none :=
  ⟨(claim_C4 listRespFull "bkt" [objA, objB, objC, objP, objD] false none none
      rfl cpTagFull (List.Mem.head _)).1,
   (claim_C4 listRespFull "bkt" [objA, objB, objC, objP, objD] false none none
      rfl cpTagFull (List.Mem.head _)).2.1,
   (claim_C4 listRespFull "bkt" [objA, objB, objC, objP, objD] false none none
      rfl cpTagFull (List.Mem.head _)).2.2.2.2.2.1,
   (claim_C4 listRespFull "bkt" [objA, objB, objC, objP, objD] false none none
      rfl cpTagFull (List.Mem.head _)).2.2.2.1⟩

/-- Helper: the getD-form `is_truncated` derivation used by
`parse_list_objects` agrees with the lowercase-iff reading. -/
theorem is_truncated_getd_iff (x : Option String) :
    ((pyLower (x.getD "")) == "true") = true
      ↔ ∃ t, x = some t ∧ pyLower t = "true" := by
  cases x with
  | none =>
    simp only [Option.getD_none, beq_iff_eq]
    constructor
    · intro h
      exact absurd h (by decide)
    · rintro ⟨t, ht, _⟩
      exact Option.noConfusion ht
  | some t =>
    simp only [Option.getD_some, beq_iff_eq]
    constructor
    · intro h
      exact ⟨t, rfl, h⟩
    · rintro ⟨t2, ht2, h⟩
      cases ht2
      exact h

/-- Helper: the match-form `is_truncated` derivation used by the two
multipart assemblers agrees with the lowercase-iff reading. -/
theorem is_truncated_match_iff (x : Option String) :
    ((match x with
      | none => false
      | some t => pyLower t == "true") = true)
      ↔ ∃ t, x = some t ∧ pyLower t = "true" := by
  cases x with
  | none => simp
  | some t =>
    simp only [beq_iff_eq]
    constructor
    · intro h
      exact ⟨t, rfl, h⟩
    · rintro ⟨t2, ht2, h⟩
      cases ht2
      exact h

/-- C5: in `parse_list_objects`, `ListPartsResult` and
`ListMultipartUploadsResult`, the `is_truncated` flag is true iff the
IsTruncated element is present and its lowercase-normalized text equals
`true`; any other text, and an absent element, give false. -/
theorem claim_C5 (r1 : HttpResponse) (b : String)
    (objs : List Object) (it : Bool) (ct vm : Option String)
    (r2 : HttpResponse) (lp : ListPartsResult)
    (r3 : HttpResponse) (lm : ListMultipartUploadsResult)
    (h1 : parse_list_objects r1 b = Except.ok (objs, it, ct, vm))
    (h2 : ListPartsResult.fromResponse r2 = Except.ok lp)
    (h3 : ListMultipartUploadsResult.fromResponse r3 = Except.ok lm) :
    (it = true ↔ ∃ t, findtext r1.data "IsTruncated" = some t ∧ pyLower t = "true") ∧
    (lp.is_truncated = true
      ↔ ∃ t, findtext r2.data "IsTruncated" = some t ∧ pyLower t = "true") ∧
    (lm.is_truncated = true
      ↔ ∃ t, findtext r3.data "IsTruncated" = some t ∧ pyLower t = "true") := by
  obtain ⟨_, _, _, _, _, _, _, hit, _, _⟩ :=
    parse_list_objects_ok r1 b objs it ct vm h1
  have hlp := listparts_ok_is_truncated r2 lp h2
  have hlm := listmu_ok_is_truncated r3 lm h3
  refine ⟨?_, ?_, ?_⟩
  · rw [hit]
    exact is_truncated_getd_iff (findtext r1.data "IsTruncated")
  · rw [hlp]
    exact is_truncated_match_iff (findtext r2.data "IsTruncated")
  · rw [hlm]
    exact is_truncated_match_iff (findtext r3.data "IsTruncated")

/-- An object listing whose IsTruncated text is `True` (mixed case). -/
def listRespUpperTrue : HttpResponse :=
  HttpResponse.mk (XmlElem.mk "ListBucketResult" none
    [leafElem "IsTruncated" "True"]) []

/-- A ListParts response whose IsTruncated text is `true`. -/
def partsRespTrue : HttpResponse :=
  HttpResponse.mk (XmlElem.mk "ListPartsResult" none
    [leafElem "IsTruncated" "true"]) []

/-- A ListMultipartUploads response with no IsTruncated element. -/
def uploadsRespNoTrunc : HttpResponse :=
  HttpResponse.mk (XmlElem.mk "ListMultipartUploadsResult" none []) []

/-- The ListPartsResult assembled from `partsRespTrue`. -/
def lpTrue : ListPartsResult :=
  ListPartsResult.mk none none none none none none none none none none true []

/-- The ListMultipartUploadsResult assembled from `uploadsRespNoTrunc`. -/
def lmNoTrunc : ListMultipartUploadsResult :=
  ListMultipartUploadsResult.mk none none none none none none false []

/-- C5 witness: `True` lowercases to true, `true` is true, and an absent
IsTruncated is false, across the three parsers. -/
theorem claim_C5_witness :
    ((true : Bool) = true
      ↔ ∃ t, findtext listRespUpperTrue.data "IsTruncated" = some t ∧ pyLower t = "true") ∧
    (lpTrue.is_truncated = true
      ↔ ∃ t, findtext partsRespTrue.data "IsTruncated" = some t ∧ pyLower t = "true") ∧
    (lmNoTrunc.is_truncated = true
      ↔ ∃ t, findtext uploadsRespNoTrunc.data "IsTruncated" = some t ∧ pyLower t = "true") :=
  claim_C5 listRespUpperTrue "bkt" [] true none none partsRespTrue lpTrue
    uploadsRespNoTrunc lmNoTrunc rfl rfl rfl

/-- C8: the CompleteMultipartUpload result's version ID equals the value
of the case-insensitively looked-up `x-amz-version-id` response header,
even when the XML body has no VersionId element, and the remaining XML
fields depend only on the body: two responses with the same body agree
on bucket name, object name, location and etag regardless of headers. -/
theorem claim_C8 (r r2 : HttpResponse) (hbody : r.data = r2.data)
    (v : String) (hv : getheader r "x-amz-version-id" = some v)
    (_hxml : findtext r.data "VersionId" = none) :
    (CompleteMultipartUploadResult.fromResponse r).version_id = some v ∧
    (CompleteMultipartUploadResult.fromResponse r).bucket_name
      = (CompleteMultipartUploadResult.fromResponse r2).bucket_name ∧
    (CompleteMultipartUploadResult.fromResponse r).object_name
      = (CompleteMultipartUploadResult.fromResponse r2).object_name ∧
    (CompleteMultipartUploadResult.fromResponse r).location
      = (CompleteMultipartUploadResult.fromResponse r2).location ∧
    (CompleteMultipartUploadResult.fromResponse r).etag
      = (CompleteMultipartUploadResult.fromResponse r2).etag := by
  refine ⟨?_, ?_, ?_, ?_, ?_⟩
  · rw [(cmu_fields r).2.1]
    exact hv
  · rw [(cmu_fields r).2.2.1, (cmu_fields r2).2.2.1, hbody]
  · rw [(cmu_fields r).2.2.2.1, (cmu_fields r2).2.2.2.1, hbody]
  · rw [(cmu_fields r).2.2.2.2, (cmu_fields r2).2.2.2.2, hbody]
  · rw [(cmu_fields r).1, (cmu_fields r2).1, hbody]

/-- A CompleteMultipartUpload response whose version ID arrives only in
a mixed-case response header. -/
def cmuRespHeaderOnly : HttpResponse :=
  HttpResponse.mk (XmlElem.mk "CompleteMultipartUploadResult" none
    [leafElem "Bucket" "bkt", leafElem "Key" "k"])
    [("X-Amz-Version-ID", "v1")]

/-- The same body as `cmuRespHeaderOnly` with different headers. -/
def cmuRespHeaderOnly2 : HttpResponse :=
  HttpResponse.mk cmuRespHeaderOnly.data [("X-Other", "h")]

/-- C8 witness: the mixed-case header `X-Amz-Version-ID: v1` supplies
the version ID although the body has no VersionId element, and the
body-derived fields ignore the headers. -/
theorem claim_C8_witness :
    (CompleteMultipartUploadResult.fromResponse cmuRespHeaderOnly).version_id = some "v1" ∧
    (CompleteMultipartUploadResult.fromResponse cmuRespHeaderOnly).bucket_name
      = (CompleteMultipartUploadResult.fromResponse cmuRespHeaderOnly2).bucket_name ∧
    (CompleteMultipartUploadResult.fromResponse cmuRespHeaderOnly).object_name
      = (CompleteMultipartUploadResult.fromResponse cmuRespHeaderOnly2).object_name ∧
    (CompleteMultipartUploadResult.fromResponse cmuRespHeaderOnly).location
      = (CompleteMultipartUploadResult.fromResponse cmuRespHeaderOnly2).location ∧
    (CompleteMultipartUploadResult.fromResponse cmuRespHeaderOnly).etag
      = (CompleteMultipartUploadResult.fromResponse cmuRespHeaderOnly2).etag :=
  claim_C8 cmuRespHeaderOnly cmuRespHeaderOnly2 rfl "v1" rfl rfl

/-- The per-bucket property the claim asserts between a parsed bucket
and its source element: the required Name as the name, and the optional
CreationDate — absent giving absent, present nonempty text giving the
parsed instant. -/
def bucketMatchesElement (bk : Bucket) (el : XmlElem) : Prop :=
  findtext_strict el "Name" = Except.ok bk.name ∧
  (findtext el "CreationDate" = none → bk.creation_date = none) ∧
  (∀ t, findtext el "CreationDate" = some t → t ≠ "" →
    bk.creation_date = some (StrOrTime.time (strptime_rfc3339 t)))

/-- C9: a valid bucket-listing body parses to exactly one bucket per
Bucket child of the Buckets container, in document order, with the
required Name and the optional parsed CreationDate; an absent Buckets
container gives an empty sequence rather than an error. -/
theorem claim_C9 (element : XmlElem) (res : ListAllMyBucketsResult)
    (h : ListAllMyBucketsResult.fromxml element = Except.ok res) :
    (find element "Buckets" = none → res.buckets = []) ∧
    ∀ container, find element "Buckets" = some container →
      List.Forall₂ bucketMatchesElement res.buckets (findall container "Bucket") := by
  simp only [ListAllMyBucketsResult.fromxml] at h
  split at h
  · rename_i hnone
    cases h
    constructor
    · intro _
      rfl
    · intro container hcont
      rw [hnone] at hcont
      cases hcont
  · rename_i container0 hcont0
    split at h
    · cases h
    · rename_i buckets hbk
      cases h
      constructor
      · intro hn
        rw [hn] at hcont0
        cases hcont0
      · intro container hcont
        have hceq := Option.some.inj (hcont0.symm.trans hcont)
        subst hceq
        refine List.Forall₂.imp ?_ (mapExcept_ok_forall2 _ _ _ hbk)
        intro bk el hfe
        simp only at hfe
        cases hns : findtext_strict el "Name" with
        | error e =>
          rw [hns] at hfe
          cases hfe
        | ok name =>
          rw [hns] at hfe
          cases hfe
          refine ⟨hns, ?_, ?_⟩
          · intro hcd
            simp [truthyTimeField, hcd]
          · intro t hcd ht
            simp [truthyTimeField, hcd, ht]

/-- The Buckets container of the example bucket listing. -/
def bucketsContainerEx : XmlElem :=
  XmlElem.mk "Buckets" none
    [XmlElem.mk "Bucket" none
      [leafElem "Name" "b1", leafElem "CreationDate" "2020-01-02T03:04:05Z"],
     XmlElem.mk "Bucket" none [leafElem "Name" "b2"]]

/-- A bucket-listing body with two buckets. -/
def bucketListElemEx : XmlElem :=
  XmlElem.mk "ListAllMyBucketsResult" none [bucketsContainerEx]

/-- A bucket-listing body with no Buckets container. -/
def bucketListElemEmpty : XmlElem :=
  XmlElem.mk "ListAllMyBucketsResult" none []

/-- The parsed result of `bucketListElemEx`. -/
def bucketListResEx : ListAllMyBucketsResult :=
  ListAllMyBucketsResult.mk
    [Bucket.mk "b1" (some (StrOrTime.time (strptime_rfc3339 "2020-01-02T03:04:05Z"))),
     Bucket.mk "b2" none]

/-- C9 witness: the two-bucket body parses to two matching buckets in
document order, and the container-free body parses to the empty
sequence. -/
theorem claim_C9_witness :
    ListAllMyBucketsResult.fromxml bucketListElemEx = Except.ok bucketListResEx ∧
    List.Forall₂ bucketMatchesElement bucketListResEx.buckets
      (findall bucketsContainerEx "Bucket") ∧
    (ListAllMyBucketsResult.mk []).buckets = [] :=
  ⟨rfl,
   (claim_C9 bucketListElemEx bucketListResEx rfl).2 bucketsContainerEx rfl,
   (claim_C9 bucketListElemEmpty (ListAllMyBucketsResult.mk []) rfl).1 rfl⟩

end Minio
